import Mathlib

/-
Verification development for `lyricist.py`, a Genius lyrics client.

Strings are modelled as `List Char`.  The two Unicode-table operations the
source delegates to the Python standard library — `unicodedata.normalize("NFKD", ·)`
and `str.casefold` — are modelled on the ASCII fragment, where NFKD is the
identity and casefolding is lowercasing of the basic latin letters; every
other operation is translated directly from the source.
-/

namespace Lyricist

abbrev Str := List Char

/-- Model of `unicodedata.normalize("NFKD", s)` restricted to the ASCII
fragment, on which NFKD normalization is the identity map. -/
def nfkd (s : Str) : Str := s

/-- Model of the regex class `\w` (word character) on the ASCII fragment:
letters, digits and the underscore (code point 95). -/
def isWordChar (c : Char) : Bool :=
  (65 ≤ c.toNat && c.toNat ≤ 90) || (97 ≤ c.toNat && c.toNat ≤ 122) ||
    (48 ≤ c.toNat && c.toNat ≤ 57) || c.toNat == 95

/-- Model of the regex class `\s` (whitespace) on the ASCII fragment:
space, tab, newline, carriage return, vertical tab, form feed. -/
def isSpaceChar (c : Char) : Bool :=
  c.toNat == 32 || c.toNat == 9 || c.toNat == 10 || c.toNat == 13 ||
    c.toNat == 11 || c.toNat == 12

/-- Source `_remove_punctuation`: `re.sub(r"[^\w\s]", "", string)` deletes
every character that is neither a word character nor whitespace. -/
def removePunctuation (s : Str) : Str :=
  s.filter (fun c => isWordChar c || isSpaceChar c)

/-- Model of `str.casefold` on one ASCII character: map A–Z to a–z. -/
def casefoldChar (c : Char) : Char :=
  if 65 ≤ c.toNat ∧ c.toNat ≤ 90 then Char.ofNat (c.toNat + 32) else c

/-- Model of `str.casefold` restricted to the ASCII fragment. -/
def casefold (s : Str) : Str := s.map casefoldChar

/-- Helper for the header regex `(\[.*?\])\n{1}`: after an opening bracket,
scan for the first `]` that is immediately followed by a newline, with no
newline in between (regex `.` does not match a newline); return the text
after the consumed `]\n`, or `none` if the pattern cannot complete. -/
def headerEnd : Str → Option Str
  | [] => none
  | c :: cs =>
    if c = '\n' then none
    else if c = ']' ∧ cs.head? = some '\n' then some cs.tail
    else headerEnd cs

theorem headerEnd_length : ∀ cs rest, headerEnd cs = some rest → rest.length < cs.length := by
  intro cs
  induction cs with
  | nil => intro rest h; simp [headerEnd] at h
  | cons c cs ih =>
    intro rest h
    rw [headerEnd] at h
    split_ifs at h with h1 h2
    · injection h with h
      subst h
      simp [List.length_tail]
      cases cs
      · simp at h2
      · simp; omega
    · have := ih rest h
      simp; omega

/-- Source `re.sub(r"(\[.*?\])\n{1}", "", lyrics)`: repeatedly delete the
leftmost non-overlapping occurrence of a bracketed header followed by a
newline. -/
def stripHeaders : Str → Str
  | [] => []
  | c :: cs =>
    if c = '[' then
      match h : headerEnd cs with
      | some rest => stripHeaders rest
      | none => c :: stripHeaders cs
    else c :: stripHeaders cs
termination_by s => s.length
decreasing_by
  · have := headerEnd_length cs rest h
    simp; omega
  · simp
  · simp

/-- Source `lyrics.replace("\n\n", "\n")`: replace non-overlapping
occurrences of a doubled newline, scanning left to right. -/
def collapseNewlines : Str → Str
  | [] => []
  | [c] => [c]
  | c :: d :: rest =>
    if c = '\n' ∧ d = '\n' then '\n' :: collapseNewlines rest
    else c :: collapseNewlines (d :: rest)

/-- The lyric normalization pipeline of `Lyricist.get_song_lyrics`
(lines 348–352 of the source), applied to the extracted container text:
NFKD normalization, header stripping, doubled-newline collapsing,
punctuation removal, casefolding. -/
def normalizeLyrics (s : Str) : Str :=
  casefold (removePunctuation (collapseNewlines (stripHeaders (nfkd s))))

/-- Python exceptions raised by the modelled code: `TypeError` from the
substring test on `None`, `ValueError` from `get_artist_id`, `NameError`
from reading the unbound loop variable `song`. -/
inductive PyErr where
  | typeError
  | valueError
  | nameError
deriving DecidableEq

/-- Raw artist record (the dict passed to `Artist.from_data`): the fields
the source reads are `id`, `name` and `url`. -/
structure ArtistData where
  id : Nat
  name : String
  url : String
deriving DecidableEq

/-- Raw song record (the dict passed to `Song.from_data`): the source reads
`id`, `title`, `full_title`, `url`, `primary_artist` and `featured_artists`;
a saved song dict additionally carries `lyrics` (read by `load_artist`,
ignored by `Song.from_data`). -/
structure SongData where
  id : Nat
  title : Str
  full_title : Str
  url : String
  primary_artist : ArtistData
  featured_artists : List ArtistData
  lyrics : Option Str
deriving DecidableEq

/-- An `Artist` object: `name` and `url` are set at construction; `songs`
and `featured_on` hold references to `Song` objects, modelled as ids into
the song registry. -/
structure Artist where
  name : String
  url : String
  songIds : List Nat
  featuredOnIds : List Nat
deriving DecidableEq

/-- A `Song` object: the `artist` reference and the `featured_artists`
references are modelled as ids into the artist registry; `lyrics` starts
out as `None` (here `none`). -/
structure Song where
  title : Str
  full_title : Str
  url : String
  artistId : Nat
  featuredArtistIds : List Nat
  lyrics : Option Str
deriving DecidableEq

/-- The process-wide identity registries: the class-level dicts
`Artist._artists` and `Song._songs`, keyed by numeric id. -/
structure RegState where
  artists : Nat → Option Artist
  songs : Nat → Option Song

/-- A fresh process: both registries empty. -/
def emptyReg : RegState := ⟨fun _ => none, fun _ => none⟩

/-- Source `Artist.from_data` (lines 46–59): if the id is registered,
return the existing object unchanged; otherwise construct the artist from
`name` and `url` with empty song lists, register it, and return it.  The
returned `Nat` is the object reference (its registry key). -/
def Artist.from_data (data : ArtistData) (st : RegState) : Nat × RegState :=
  match st.artists data.id with
  | some _ => (data.id, st)
  | none =>
    (data.id,
      { st with artists := fun k => if k = data.id then some ⟨data.name, data.url, [], []⟩ else st.artists k })

/-- The loop over `data["featured_artists"]` in `Song.from_data`: register
each featured artist in order, collecting the references. -/
def registerFeatured (fas : List ArtistData) (st : RegState) : List Nat × RegState :=
  match fas with
  | [] => ([], st)
  | fa :: rest =>
    let r := Artist.from_data fa st
    let rr := registerFeatured rest r.2
    (r.1 :: rr.1, rr.2)

/-- Source `song.artist.songs.append(song)`: append the song reference to
the artist's `songs` list.  The artist is always registered at the call
site, so the no-entry case is unreachable there. -/
def appendSongTo (aid sid : Nat) (st : RegState) : RegState :=
  { st with artists := fun k =>
      if k = aid then (st.artists aid).map (fun a => { a with songIds := a.songIds ++ [sid] })
      else st.artists k }

/-- Source `featured_artist.featured_on.append(song)` for one artist. -/
def appendFeaturedOnTo (aid sid : Nat) (st : RegState) : RegState :=
  { st with artists := fun k =>
      if k = aid then (st.artists aid).map (fun a => { a with featuredOnIds := a.featuredOnIds ++ [sid] })
      else st.artists k }

/-- The loop `for featured_artist in song.featured_artists: ...append(song)`. -/
def appendFeaturedOnAll (aids : List Nat) (sid : Nat) (st : RegState) : RegState :=
  match aids with
  | [] => st
  | aid :: rest => appendFeaturedOnAll rest sid (appendFeaturedOnTo aid sid st)

/-- Source `Song.from_data` (lines 100–122): if the id is registered,
return the existing object unchanged; otherwise NFKD-normalize the titles,
resolve the primary and featured artists through `Artist.from_data`, build
the song with unset lyrics, link it into the artists' lists, register it,
and return it. -/
def Song.from_data (data : SongData) (st : RegState) : Nat × RegState :=
  match st.songs data.id with
  | some _ => (data.id, st)
  | none =>
    let pr := Artist.from_data data.primary_artist st
    let fr := registerFeatured data.featured_artists pr.2
    let song : Song := ⟨nfkd data.title, nfkd data.full_title, data.url, pr.1, fr.1, none⟩
    let st1 := appendSongTo pr.1 data.id fr.2
    let st2 := appendFeaturedOnAll fr.1 data.id st1
    (data.id, { st2 with songs := fun k => if k = data.id then some song else st2.songs k })

/-- Source `Artist.to_dict`: `{id, name, url}`. -/
def Artist.to_dict (aid : Nat) (a : Artist) : ArtistData := ⟨aid, a.name, a.url⟩

/-- The loop over `self.featured_artists` in `Song.to_dict`: dict of each
referenced artist; `none` if a reference dangles (impossible in Python,
where references are direct). -/
def featuredDicts (st : RegState) : List Nat → Option (List ArtistData)
  | [] => some []
  | fid :: rest =>
    match st.artists fid with
    | none => none
    | some fa =>
      match featuredDicts st rest with
      | none => none
      | some ds => some (Artist.to_dict fid fa :: ds)

/-- Source `Song.to_dict` (lines 127–139): id, titles, url, the primary
artist's dict, the featured artists' dicts, and the lyrics value. -/
def Song.to_dict (st : RegState) (sid : Nat) : Option SongData :=
  match st.songs sid with
  | none => none
  | some s =>
    match st.artists s.artistId with
    | none => none
    | some a =>
      match featuredDicts st s.featuredArtistIds with
      | none => none
      | some fds => some ⟨sid, s.title, s.full_title, s.url, Artist.to_dict s.artistId a, fds, s.lyrics⟩

/-- The JSON document written by `Artist.save`: id, name, url, time,
and the song dicts of `songs` and `featured_on`. -/
structure SavedArtist where
  id : Nat
  name : String
  url : String
  time : Nat
  songs : List SongData
  featured_on : List SongData
deriving DecidableEq

/-- The song-dict loops in `Artist.save`. -/
def songDicts (st : RegState) : List Nat → Option (List SongData)
  | [] => some []
  | sid :: rest =>
    match Song.to_dict st sid with
    | none => none
    | some d =>
      match songDicts st rest with
      | none => none
      | some ds => some (d :: ds)

/-- Source `Artist.save` / `Lyricist.save_artist` (lines 71–83, 380–382):
materialize the artist dict, a timestamp, and the dicts of every song in
`songs` and `featured_on`. -/
def save_artist (st : RegState) (aid : Nat) (t : Nat) : Option SavedArtist :=
  match st.artists aid with
  | none => none
  | some a =>
    match songDicts st a.songIds with
    | none => none
    | some sds =>
      match songDicts st a.featuredOnIds with
      | none => none
      | some fds => some ⟨aid, a.name, a.url, t, sds, fds⟩

/-- Source `song.lyrics = song_json["lyrics"]` in `load_artist`. -/
def setSongLyrics (sid : Nat) (ly : Option Str) (st : RegState) : RegState :=
  { st with songs := fun k =>
      if k = sid then (st.songs sid).map (fun s => { s with lyrics := ly })
      else st.songs k }

/-- The loop over `chain(artist_json["songs"], artist_json["featured_on"])`
in `load_artist`: reconstruct each song and restore its stored lyrics. -/
def loadSongs (ds : List SongData) (st : RegState) : RegState :=
  match ds with
  | [] => st
  | d :: rest =>
    let r := Song.from_data d st
    loadSongs rest (setSongLyrics r.1 d.lyrics r.2)

/-- Source `Lyricist.load_artist` (lines 388–396): rebuild the artist from
the saved dict, then rebuild every saved song. -/
def load_artist (sa : SavedArtist) (st : RegState) : Nat × RegState :=
  let r := Artist.from_data ⟨sa.id, sa.name, sa.url⟩ st
  (r.1, loadSongs (sa.songs ++ sa.featured_on) r.2)

/-- An artist record inside the artist-page payload or a search hit:
the source reads its `name` and `id`. -/
structure ArtistRef where
  id : Nat
  name : String
deriving DecidableEq

/-- One song of the `artist_songs` payload on the artist page. -/
structure PageSong where
  primary_artist : ArtistRef
  featured_artists : List ArtistRef
deriving DecidableEq

/-- The `result` object of a search hit. -/
structure HitResult where
  primary_artist : ArtistRef
deriving DecidableEq

/-- One hit of the search-API response. -/
structure SearchHit where
  result : HitResult
deriving DecidableEq

/-- The inner loop `for featured_artist in ...: if name matches return id`
of `get_artist_id`. -/
def findFeatured (name : String) : List ArtistRef → Option Nat
  | [] => none
  | fa :: rest => if fa.name = name then some fa.id else findFeatured name rest

/-- First resolution tier of `get_artist_id` (lines 261–267): scan the
page's songs in order; for each song check the primary artist, then the
featured artists, for an exact name match, returning the first matching id. -/
def tier1Scan (name : String) : List PageSong → Option Nat
  | [] => none
  | s :: rest =>
    if s.primary_artist.name = name then some s.primary_artist.id
    else
      match findFeatured name s.featured_artists with
      | some i => some i
      | none => tier1Scan name rest

/-- Second resolution tier of `get_artist_id` (lines 272–281): scan the
search hits; check each hit's primary artist, then — reading the leftover
loop variable `song` of the first loop — the LAST page song's featured
artists.  If the page had no songs, that variable is unbound and Python
raises `NameError`; if the hits run out, `ValueError` is raised. -/
def tier2Scan (name : String) (lastSong : Option PageSong) : List SearchHit → Except PyErr Nat
  | [] => .error .valueError
  | h :: rest =>
    if h.result.primary_artist.name = name then .ok h.result.primary_artist.id
    else
      match lastSong with
      | none => .error .nameError
      | some s =>
        match findFeatured name s.featured_artists with
        | some i => .ok i
        | none => tier2Scan name lastSong rest

/-- The id-resolution core of `get_artist_id`, given the decoded page
payload and the decoded search hits: tier 1, then tier 2 on no match. -/
def get_artist_id (name : String) (songs : List PageSong) (hits : List SearchHit) : Except PyErr Nat :=
  match tier1Scan name songs with
  | some i => .ok i
  | none => tier2Scan name songs.getLast? hits

/-- The flattened record list scanned by tier 1, in scan order: each song's
primary-artist record followed by its featured-artist records. -/
def pageRecords : List PageSong → List ArtistRef
  | [] => []
  | s :: rest => s.primary_artist :: (s.featured_artists ++ pageRecords rest)

/-- The fallible part of the `get_song_lyrics` try-block: the web request,
HTML parsing and container selection are modelled by the `fetch` outcome
(the extracted container text, or the exception); the subsequent
normalization pipeline is pure. -/
def get_song_lyrics_body (fetch : Except PyErr Str) : Except PyErr Str :=
  match fetch with
  | .error e => .error e
  | .ok text => .ok (normalizeLyrics text)

/-- Source `Lyricist.get_song_lyrics` (lines 341–356) for one song, given
the fetch outcome and the song's current `lyrics` field: returns the pair
(returned string, updated `lyrics` field).  An exception anywhere in the
try-block is caught and recorded as empty-string lyrics. -/
def get_song_lyrics (fetch : Except PyErr Str) (lyrics : Option Str) :
    Except PyErr (Str × Option Str) :=
  match lyrics with
  | some s => .ok (s, some s)
  | none =>
    match get_song_lyrics_body fetch with
    | .ok l => .ok (l, some l)
    | .error _ => .ok ([], some [])

/-- Source `Lyricist.get_artist_lyrics` (lines 358–360): call
`get_song_lyrics` on every song of `chain(artist.songs, artist.featured_on)`,
each represented by its fetch outcome and current lyrics field; collect the
updated lyrics fields. -/
def get_artist_lyrics (songs : List (Except PyErr Str × Option Str)) :
    Except PyErr (List (Option Str)) :=
  match songs with
  | [] => .ok []
  | (f, ly) :: rest =>
    match get_song_lyrics f ly with
    | .error e => .error e
    | .ok r =>
      match get_artist_lyrics rest with
      | .error e => .error e
      | .ok rs => .ok (r.2 :: rs)

/-- Source query normalization in `search_artist_lyrics`:
`_remove_punctuation(lyric.casefold())`. -/
def normalizeQuery (q : Str) : Str := removePunctuation (casefold q)

/-- Model of Python's substring operator `needle in hay` on strings:
true when `needle` occurs contiguously in `hay` (always true for the
empty needle). -/
def isSubstring (needle : Str) : Str → Bool
  | [] => needle.isPrefixOf []
  | c :: t => needle.isPrefixOf (c :: t) || isSubstring needle t

/-- One evaluation of `lyric in song.lyrics`: a `TypeError` when the
lyrics field is `None`, otherwise the substring test. -/
def lyricTest (ly : Option Str) (q : Str) : Except PyErr Bool :=
  match ly with
  | none => .error .typeError
  | some l => .ok (isSubstring q l)

/-- The list comprehension `[lyric in song.lyrics for lyric in lyrics]`. -/
def lyricTests (ly : Option Str) : List Str → Except PyErr (List Bool)
  | [] => .ok []
  | q :: qs =>
    match lyricTest ly q with
    | .error e => .error e
    | .ok b =>
      match lyricTests ly qs with
      | .error e => .error e
      | .ok bs => .ok (b :: bs)

/-- The candidate loop of `search_artist_lyrics`: skip a song whose lyrics
equal the empty string, evaluate the substring tests, and keep the song
when `all`/`any` of them hold. -/
def searchScan (qs : List Str) (matchAll : Bool) : List Song → Except PyErr (List Song)
  | [] => .ok []
  | s :: rest =>
    if s.lyrics = some [] then searchScan qs matchAll rest
    else
      match lyricTests s.lyrics qs with
      | .error e => .error e
      | .ok bs =>
        match searchScan qs matchAll rest with
        | .error e => .error e
        | .ok tail => .ok (if (if matchAll then bs.all id else bs.any id) then s :: tail else tail)

/-- Source `Lyricist.search_artist_lyrics` (lines 362–378), given the
artist's `songs` and `featured_on` lists: normalize the queries, extend the
candidate list with the featured songs when `featured` is set, and scan. -/
def search_artist_lyrics (songs featuredOn : List Song) (queries : List Str)
    (featured matchAll : Bool) : Except PyErr (List Song) :=
  searchScan (queries.map normalizeQuery) matchAll
    (songs ++ if featured then featuredOn else [])

/-- Follows the spec's words for one song: the lyrics are not the empty
string, and every normalized query is a substring of them (`matchAll`) or
at least one is (otherwise). -/
def matchesSpec (qs : List Str) (matchAll : Bool) (s : Song) : Bool :=
  match s.lyrics with
  | none => false
  | some l =>
    decide (l ≠ []) &&
      (if matchAll then qs.all (fun q => isSubstring q l) else qs.any (fun q => isSubstring q l))

/-- Follows the spec's words for the whole search: exactly the candidate
songs (songs first, then featured songs, each in insertion order) that
satisfy `matchesSpec`, in candidate scan order. -/
def search_spec (songs featuredOn : List Song) (queries : List Str)
    (featured matchAll : Bool) : List Song :=
  (songs ++ if featured then featuredOn else []).filter
    (matchesSpec (queries.map normalizeQuery) matchAll)

/-- The song dict `d` is the materialization of a registered song of `st`:
the registry holds a song under `d.id` whose stored fields the dict
reproduces. -/
def DictOf (st : RegState) (d : SongData) : Prop :=
  ∃ s, st.songs d.id = some s ∧ d.title = s.title ∧ d.full_title = s.full_title
    ∧ d.url = s.url ∧ d.primary_artist.id = s.artistId
    ∧ d.featured_artists.map ArtistData.id = s.featuredArtistIds ∧ d.lyrics = s.lyrics

/-- Every artist registered in `st` is still registered in `st'` with the
same `name` and `url` (its song lists may have grown). -/
def preservesArtistNames (st st' : RegState) : Prop :=
  ∀ k a, st.artists k = some a →
    ∃ a', st'.artists k = some a' ∧ a'.name = a.name ∧ a'.url = a.url

/-- A concrete registry holding artist 7 with one song, 4: fixture for the
identity witness. -/
def c1St : RegState :=
  ⟨fun k => if k = 7 then some ⟨"N", "U", [4], []⟩ else none,
   fun k => if k = 4 then some ⟨['t'], ['f'], "su", 7, [], none⟩ else none⟩

/-- A concrete registry with fetched lyrics: fixture for the round-trip
witness. -/
def c5St : RegState :=
  ⟨fun k => if k = 7 then some ⟨"N", "U", [4], []⟩ else none,
   fun k => if k = 4 then some ⟨['t'], ['f'], "su", 7, [], some ['l']⟩ else none⟩

/-- The document `save_artist` writes for artist 7 of `c5St`. -/
def c5Saved : SavedArtist :=
  ⟨7, "N", "U", 0, [⟨4, ['t'], ['f'], "su", ⟨7, "N", "U"⟩, [], some ['l']⟩], []⟩

/-- A song with fetched lyrics: fixture for the search witness. -/
def c2Song : Song := ⟨['t'], ['f'], "u", 1, [], some ['l', 'a']⟩

/-- A song whose lyrics were never fetched: fixture for the unfetched-search
witness. -/
def c10Song : Song := ⟨['t'], ['f'], "u", 1, [], none⟩

/-! Character-level facts about the ASCII casefold model. -/

theorem toNat_ofNat_valid (n : Nat) (h : n < 55296) : (Char.ofNat n).toNat = n := by
  rw [Char.ofNat, dif_pos (Or.inl h : n.isValidChar)]
  rfl

theorem charEq_of_toNat {c d : Char} (h : c.toNat = d.toNat) : c = d := by
  apply Char.ext
  apply UInt32.eq_of_toBitVec_eq
  apply BitVec.eq_of_toNat_eq
  exact h

theorem toNat_casefoldChar (c : Char) :
    (casefoldChar c).toNat = if 65 ≤ c.toNat ∧ c.toNat ≤ 90 then c.toNat + 32 else c.toNat := by
  unfold casefoldChar
  split_ifs with h
  · exact toNat_ofNat_valid _ (by omega)
  · rfl

theorem casefoldChar_idem (c : Char) : casefoldChar (casefoldChar c) = casefoldChar c := by
  apply charEq_of_toNat
  have h1 := toNat_casefoldChar c
  have h2 := toNat_casefoldChar (casefoldChar c)
  split_ifs at h1 h2 <;> omega

theorem casefoldChar_keep (c : Char) (h : (isWordChar c || isSpaceChar c) = true) :
    (isWordChar (casefoldChar c) || isSpaceChar (casefoldChar c)) = true := by
  have h1 := toNat_casefoldChar c
  simp [isWordChar, isSpaceChar] at h ⊢
  split_ifs at h1 <;> omega

theorem casefoldChar_ne_lbracket (c : Char) (h : c ≠ '[') : casefoldChar c ≠ '[' := by
  intro hc
  apply h
  apply charEq_of_toNat
  have h1 := toNat_casefoldChar c
  have h2 : (casefoldChar c).toNat = 91 := by rw [hc]; rfl
  have h3 : ('[' : Char).toNat = 91 := rfl
  rw [h3]
  split_ifs at h1 <;> omega

/-! Lyrics fetching: totality and failure containment. -/

theorem get_song_lyrics_total (fetch : Except PyErr Str) (ly : Option Str) :
    ∃ r, get_song_lyrics fetch ly = .ok r := by
  cases ly with
  | some s => exact ⟨(s, some s), rfl⟩
  | none =>
    cases hb : get_song_lyrics_body fetch with
    | ok l => exact ⟨(l, some l), by simp [get_song_lyrics, hb]⟩
    | error e => exact ⟨([], some []), by simp [get_song_lyrics, hb]⟩

theorem get_artist_lyrics_total (songs : List (Except PyErr Str × Option Str)) :
    ∃ rs, get_artist_lyrics songs = .ok rs := by
  induction songs with
  | nil => exact ⟨[], rfl⟩
  | cons p rest ih =>
    obtain ⟨r, hr⟩ := get_song_lyrics_total p.1 p.2
    obtain ⟨rs, hrs⟩ := ih
    exact ⟨r.2 :: rs, by simp [get_artist_lyrics, hr, hrs]⟩

/-- C6: any exception in the lyric-fetch pipeline of a song with unset
lyrics is caught and recorded as empty-string lyrics; `get_song_lyrics`
never propagates an exception, and neither does `get_artist_lyrics` over a
whole artist. -/
theorem lyric_fetch_failures_contained :
    (∀ (fetch : Except PyErr Str) (e : PyErr),
      get_song_lyrics_body fetch = .error e → get_song_lyrics fetch none = .ok ([], some []))
    ∧ (∀ (fetch : Except PyErr Str) (ly : Option Str), ∃ r, get_song_lyrics fetch ly = .ok r)
    ∧ (∀ songs, ∃ rs, get_artist_lyrics songs = .ok rs) := by
  refine ⟨?_, get_song_lyrics_total, get_artist_lyrics_total⟩
  intro fetch e h
  simp [get_song_lyrics, h]

/-- Witness for C6 at a concrete failing fetch. -/
theorem lyric_fetch_failures_contained_witness :
    get_song_lyrics_body (.error .typeError) = .error .typeError
    ∧ get_song_lyrics (.error .typeError) none = .ok ([], some []) :=
  ⟨rfl, lyric_fetch_failures_contained.1 (.error .typeError) .typeError rfl⟩

/-- C9: when the lyrics field is already set (including to the empty-string
failure sentinel), `get_song_lyrics` returns the stored value unchanged,
leaves the field unchanged, and its result does not depend on the fetch
outcome (no network request is consulted). -/
theorem get_song_lyrics_cache_hit :
    ∀ (fetch fetch' : Except PyErr Str) (s : Str),
      get_song_lyrics fetch (some s) = .ok (s, some s)
      ∧ get_song_lyrics fetch (some s) = get_song_lyrics fetch' (some s) :=
  fun _ _ _ => ⟨rfl, rfl⟩

/-! Resolver: tier-1 scan order. -/

theorem findFeatured_eq_find? (name : String) (fas : List ArtistRef) :
    findFeatured name fas = (fas.find? (fun r => r.name == name)).map ArtistRef.id := by
  induction fas with
  | nil => rfl
  | cons fa rest ih =>
    by_cases h : fa.name = name
    · simp [findFeatured, List.find?_cons, h]
    · simp [findFeatured, List.find?_cons, h, ih]

/-- C3: the first resolution tier scans songs in page order, checking each
song's primary-artist record and then its featured-artist records for an
exact name match, and returns the id of the first matching record: it
equals the first match over the flattened record list. -/
theorem get_artist_id_tier1_first_match (name : String) (songs : List PageSong) :
    tier1Scan name songs =
      ((pageRecords songs).find? (fun r => r.name == name)).map ArtistRef.id := by
  induction songs with
  | nil => rfl
  | cons s rest ih =>
    by_cases h : s.primary_artist.name = name
    · simp [tier1Scan, pageRecords, List.find?_cons, h]
    · rw [tier1Scan, if_neg h, findFeatured_eq_find?]
      have hb : (s.primary_artist.name == name) = false := by simp [h]
      simp only [pageRecords, List.find?_cons, hb, List.find?_append]
      cases hf : s.featured_artists.find? (fun r => r.name == name) with
      | some r => simp [hf]
      | none => simp [hf, ih]

/-! Resolver: the two tiers and their failure modes. -/

theorem tier2Scan_error_of_some (name : String) (s : PageSong) :
    ∀ hits e, tier2Scan name (some s) hits = .error e → e = .valueError := by
  intro hits
  induction hits with
  | nil =>
    intro e h
    rw [tier2Scan] at h
    simp at h
    exact h.symm
  | cons h rest ih =>
    intro e hh
    rw [tier2Scan] at hh
    split_ifs at hh with h1
    cases hf : findFeatured name s.featured_artists with
    | some i => rw [hf] at hh; simp at hh
    | none => rw [hf] at hh; exact ih e hh

/-- C4 (amended): on a nonempty artist-page payload, whenever the tier-1
scan finds no match, resolution proceeds to the search fallback (whose scan
checks each hit's primary artist and, by the leftover-variable quirk, the
last page song's featured artists) instead of raising, and the resolver
fails with the lookup-failure error exactly when neither tier produces a
match. -/
theorem get_artist_id_two_tiered (name : String) (songs : List PageSong)
    (hits : List SearchHit) (hne : songs ≠ []) :
    (tier1Scan name songs = none →
      get_artist_id name songs hits = tier2Scan name songs.getLast? hits)
    ∧ (get_artist_id name songs hits = .error .valueError ↔
        tier1Scan name songs = none ∧ ∀ i, tier2Scan name songs.getLast? hits ≠ .ok i) := by
  constructor
  · intro h1
    simp [get_artist_id, h1]
  · cases h1 : tier1Scan name songs with
    | some i => simp [get_artist_id, h1]
    | none =>
      simp only [get_artist_id, h1, true_and]
      obtain ⟨s, hs⟩ : ∃ s, songs.getLast? = some s := by
        cases hl : songs.getLast? with
        | some s => exact ⟨s, rfl⟩
        | none => exact absurd (List.getLast?_eq_none_iff.mp hl) hne
      constructor
      · intro h i
        rw [h]
        simp
      · intro h
        cases h2 : tier2Scan name songs.getLast? hits with
        | ok i => exact absurd h2 (h i)
        | error e =>
          rw [hs] at h2
          rw [tier2Scan_error_of_some name s hits e h2]

/-- Counterexample to C4 as stated: with an empty artist-page payload and a
non-matching search hit, neither tier produces a match, yet resolution does
not fail with the lookup error (`ValueError`), but with `NameError` from
the unbound loop variable `song`. -/
theorem get_artist_id_empty_page_counterexample :
    tier1Scan "X" [] = none
    ∧ (∀ i, get_artist_id "X" [] [⟨⟨⟨5, "Y"⟩⟩⟩] ≠ .ok i)
    ∧ get_artist_id "X" [] [⟨⟨⟨5, "Y"⟩⟩⟩] = .error .nameError
    ∧ PyErr.nameError ≠ PyErr.valueError := by
  refine ⟨rfl, ?_, rfl, by decide⟩
  intro i
  simp [get_artist_id, tier1Scan, tier2Scan]

/-! Search: the scan as a filter, and the unfetched-lyrics failure. -/

theorem lyricTests_some (l : Str) (qs : List Str) :
    lyricTests (some l) qs = .ok (qs.map (fun q => isSubstring q l)) := by
  induction qs with
  | nil => rfl
  | cons q rest ih => simp [lyricTests, lyricTest, ih]

theorem lyricTests_error (ly : Option Str) (qs : List Str) :
    ∀ e, lyricTests ly qs = .error e → e = .typeError := by
  induction qs with
  | nil => intro e h; simp [lyricTests] at h
  | cons q rest ih =>
    intro e h
    rw [lyricTests] at h
    cases ly with
    | none => simp [lyricTest] at h; exact h.symm
    | some l =>
      simp only [lyricTest] at h
      cases ht : lyricTests (some l) rest with
      | ok bs => rw [ht] at h; simp at h
      | error e' =>
        rw [ht] at h
        simp at h
        rw [← h]
        exact ih e' ht

theorem searchScan_filter (qs : List Str) (matchAll : Bool) :
    ∀ cands : List Song, (∀ s ∈ cands, s.lyrics ≠ none) →
      searchScan qs matchAll cands = .ok (cands.filter (matchesSpec qs matchAll)) := by
  intro cands
  induction cands with
  | nil => intro; rfl
  | cons c rest ih =>
    intro hall
    have hc : c.lyrics ≠ none := hall c (List.mem_cons_self c rest)
    have hrest := ih fun s hs => hall s (List.mem_cons_of_mem c hs)
    obtain ⟨l, hl⟩ : ∃ l, c.lyrics = some l := by
      cases hcl : c.lyrics with
      | none => exact absurd hcl hc
      | some l => exact ⟨l, rfl⟩
    by_cases hempty : l = []
    · subst hempty
      rw [searchScan, if_pos (by rw [hl])]
      rw [hrest]
      have : matchesSpec qs matchAll c = false := by simp [matchesSpec, hl]
      rw [List.filter_cons, this]
      simp
    · rw [searchScan, if_neg (by rw [hl]; simp [hempty])]
      rw [hl, lyricTests_some, hrest]
      have hm : matchesSpec qs matchAll c =
          (if matchAll then qs.all (fun q => isSubstring q l) else qs.any (fun q => isSubstring q l)) := by
        simp [matchesSpec, hl, hempty]
      rw [List.filter_cons, hm]
      cases matchAll with
      | true => simp [List.all_map, Function.comp]
      | false => simp [List.any_map, Function.comp]

/-- C2: when every candidate song's lyrics field is set, the search returns
exactly the candidate songs (the artist's songs, extended with the featured
songs when the flag is set) whose lyrics are nonempty and that satisfy the
all/any normalized-substring predicate, in candidate scan order. -/
theorem search_artist_lyrics_matches_spec (songs featuredOn : List Song)
    (queries : List Str) (featured matchAll : Bool)
    (hall : ∀ s ∈ songs ++ (if featured then featuredOn else []), s.lyrics ≠ none) :
    search_artist_lyrics songs featuredOn queries featured matchAll =
      .ok (search_spec songs featuredOn queries featured matchAll) :=
  searchScan_filter _ matchAll _ hall

theorem searchScan_error_of_none (qs : List Str) (hq : qs ≠ []) (matchAll : Bool) :
    ∀ cands : List Song, (∃ s ∈ cands, s.lyrics = none) →
      searchScan qs matchAll cands = .error .typeError := by
  intro cands
  induction cands with
  | nil => rintro ⟨s, hs, _⟩; simp at hs
  | cons c rest ih =>
    rintro ⟨s, hs, hnone⟩
    rcases List.mem_cons.mp hs with rfl | hmem
    · rw [searchScan, if_neg (by rw [hnone]; simp)]
      rw [hnone]
      obtain ⟨q, qs', rfl⟩ : ∃ q qs', qs = q :: qs' := by
        cases qs with
        | nil => exact absurd rfl hq
        | cons q qs' => exact ⟨q, qs', rfl⟩
      simp [lyricTests, lyricTest]
    · by_cases hc : c.lyrics = some []
      · rw [searchScan, if_pos hc]
        exact ih ⟨s, hmem, hnone⟩
      · rw [searchScan, if_neg hc]
        cases ht : lyricTests c.lyrics qs with
        | error e => simp [lyricTests_error c.lyrics qs e ht]
        | ok bs => simp [ih ⟨s, hmem, hnone⟩]

/-- C10: with a nonempty query list, a candidate song whose lyrics field is
still unset (`None`) makes the substring test raise `TypeError`, so the
whole search fails instead of returning a result; only the empty-string
sentinel is skipped. -/
theorem search_raises_on_unfetched (songs featuredOn : List Song)
    (queries : List Str) (featured matchAll : Bool) (hq : queries ≠ [])
    (s : Song) (hs : s ∈ songs ++ (if featured then featuredOn else []))
    (hnone : s.lyrics = none) :
    search_artist_lyrics songs featuredOn queries featured matchAll = .error .typeError := by
  apply searchScan_error_of_none
  · simp [hq]
  · exact ⟨s, hs, hnone⟩

/-! Normalization pipeline: structure, non-idempotence, conditional
idempotence. -/

theorem stripHeaders_eq_self (s : Str) (h : '[' ∉ s) : stripHeaders s = s := by
  induction s with
  | nil => rw [stripHeaders]
  | cons c cs ih =>
    have hc : c ≠ '[' := by
      intro hc
      subst hc
      exact h (List.mem_cons_self _ _)
    rw [stripHeaders, if_neg hc, ih fun hm => h (List.mem_cons_of_mem c hm)]

theorem head?_collapseNewlines (t : Str) : (collapseNewlines t).head? = t.head? := by
  induction t using collapseNewlines.induct with
  | case1 => rfl
  | case2 c => rfl
  | case3 c d rest h ih => rw [collapseNewlines, if_pos h]; simp [h.1]
  | case4 c d rest h ih => rw [collapseNewlines, if_neg h]; rfl

theorem dd_prefix_cons (a : Char) (xs : Str) :
    (['\n', '\n'] <+: a :: xs) ↔ (a = '\n' ∧ xs.head? = some '\n') := by
  constructor
  · rintro ⟨t, ht⟩
    cases xs with
    | nil => simp at ht
    | cons d xs' =>
      injection ht with h1 ht2
      injection ht2 with h2 _
      exact ⟨h1.symm, by rw [← h2]; rfl⟩
  · rintro ⟨rfl, hh⟩
    cases xs with
    | nil => simp at hh
    | cons d xs' =>
      simp at hh
      subst hh
      exact ⟨xs', rfl⟩

theorem dd_infix_cons (a : Char) (xs : Str) :
    (['\n', '\n'] <:+: a :: xs) ↔
      (a = '\n' ∧ xs.head? = some '\n') ∨ (['\n', '\n'] <:+: xs) := by
  rw [List.infix_cons_iff, dd_prefix_cons]

theorem collapseNewlines_no_dd : ∀ t : Str, ¬(['\n', '\n', '\n'] <:+: t) →
    ¬(['\n', '\n'] <:+: collapseNewlines t) := by
  intro t
  induction t using collapseNewlines.induct with
  | case1 =>
    intro _ hc
    rw [collapseNewlines] at hc
    simp at hc
  | case2 c =>
    intro _ hc
    rw [collapseNewlines] at hc
    have := hc.length_le
    simp at this
  | case3 c d rest h ih =>
    intro H hc
    obtain ⟨rfl, rfl⟩ := h
    rw [collapseNewlines, if_pos ⟨rfl, rfl⟩] at hc
    rw [dd_infix_cons] at hc
    rcases hc with ⟨_, hh⟩ | hc
    · rw [head?_collapseNewlines] at hh
      cases rest with
      | nil => simp at hh
      | cons e rest' =>
        simp at hh
        subst hh
        exact H ⟨[], rest', rfl⟩
    · exact ih (fun h3 => H (List.infix_cons (List.infix_cons h3))) hc
  | case4 c d rest h ih =>
    intro H hc
    rw [collapseNewlines, if_neg h] at hc
    rw [dd_infix_cons] at hc
    rcases hc with ⟨rfl, hh⟩ | hc
    · rw [head?_collapseNewlines] at hh
      simp at hh
      exact h ⟨rfl, hh⟩
    · exact ih (fun h3 => H (List.infix_cons h3)) hc

theorem collapseNewlines_eq_self : ∀ t : Str, ¬(['\n', '\n'] <:+: t) →
    collapseNewlines t = t := by
  intro t
  induction t using collapseNewlines.induct with
  | case1 => intro _; rfl
  | case2 c => intro _; rfl
  | case3 c d rest h ih =>
    intro H
    obtain ⟨rfl, rfl⟩ := h
    exact absurd ⟨[], rest, rfl⟩ H
  | case4 c d rest h ih =>
    intro H
    rw [collapseNewlines, if_neg h, ih fun h3 => H (List.infix_cons h3)]

theorem keep_of_mem_removePunctuation {c : Char} {s : Str}
    (h : c ∈ removePunctuation s) : (isWordChar c || isSpaceChar c) = true :=
  (List.mem_filter.mp h).2

theorem removePunctuation_eq_self (s : Str)
    (h : ∀ c ∈ s, (isWordChar c || isSpaceChar c) = true) :
    removePunctuation s = s :=
  List.filter_eq_self.mpr h

theorem casefold_casefold (s : Str) : casefold (casefold s) = casefold s := by
  unfold casefold
  rw [List.map_map]
  exact List.map_congr_left fun a _ => casefoldChar_idem a

theorem lbracket_not_mem_normalized (v : Str) :
    '[' ∉ casefold (removePunctuation v) := by
  intro hm
  obtain ⟨c, hc, hcf⟩ := List.mem_map.mp hm
  have hcne : c ≠ '[' := by
    intro hcc
    subst hcc
    exact absurd (keep_of_mem_removePunctuation hc) (by decide)
  exact casefoldChar_ne_lbracket c hcne hcf

theorem keep_of_mem_normalized (v : Str) {c : Char}
    (h : c ∈ casefold (removePunctuation v)) :
    (isWordChar c || isSpaceChar c) = true := by
  obtain ⟨c', hc', rfl⟩ := List.mem_map.mp h
  exact casefoldChar_keep c' (keep_of_mem_removePunctuation hc')

/-- Counterexample to C7 as stated: for the input of three consecutive
newlines, the post-header-stripping text contains a doubled newline, yet
the pipeline's result still contains a doubled newline — `str.replace`
collapses the non-overlapping occurrences left to right, not every
occurrence. -/
theorem normalize_collapse_counterexample :
    (['\n', '\n'] <:+: stripHeaders (nfkd ['\n', '\n', '\n']))
    ∧ normalizeLyrics ['\n', '\n', '\n'] = ['\n', '\n']
    ∧ (['\n', '\n'] <:+: normalizeLyrics ['\n', '\n', '\n']) := by
  have hs : stripHeaders (nfkd ['\n', '\n', '\n']) = ['\n', '\n', '\n'] := by
    simp [stripHeaders, headerEnd, nfkd]
  have h1 : normalizeLyrics ['\n', '\n', '\n'] = ['\n', '\n'] := by
    unfold normalizeLyrics
    rw [hs]
    decide
  refine ⟨?_, h1, ?_⟩
  · rw [hs]
    decide
  · rw [h1]

/-- C7 (amended): the pipeline applies NFKD normalization, header
stripping, newline collapsing, punctuation removal and casefolding in this
order, and the collapse step replaces non-overlapping doubled newlines left
to right: every doubled newline of a text with no run of three or more
consecutive newlines is collapsed in the step's output (a longer run
leaves residual doubled newlines, and punctuation removal can itself
re-create them). -/
theorem normalize_pipeline_order_and_collapse :
    (∀ s : Str, normalizeLyrics s =
      casefold (removePunctuation (collapseNewlines (stripHeaders (nfkd s)))))
    ∧ (∀ t : Str, ¬(['\n', '\n', '\n'] <:+: t) →
        ¬(['\n', '\n'] <:+: collapseNewlines t)) :=
  ⟨fun _ => rfl, collapseNewlines_no_dd⟩

/-- Witness for the amended C7 at a concrete text. -/
theorem normalize_pipeline_order_and_collapse_witness :
    ¬(['\n', '\n', '\n'] <:+: ['a', '\n', '\n', 'b'])
    ∧ ¬(['\n', '\n'] <:+: collapseNewlines ['a', '\n', '\n', 'b']) :=
  ⟨by decide, normalize_pipeline_order_and_collapse.2 ['a', '\n', '\n', 'b'] (by decide)⟩

/-- Counterexample to C8 as stated: normalization is not idempotent — three
consecutive newlines normalize to two, which re-normalize to one. -/
theorem normalize_not_idempotent_counterexample :
    normalizeLyrics (normalizeLyrics ['\n', '\n', '\n']) ≠
      normalizeLyrics ['\n', '\n', '\n'] := by
  have h1 : normalizeLyrics ['\n', '\n', '\n'] = ['\n', '\n'] := by
    unfold normalizeLyrics
    rw [show stripHeaders (nfkd ['\n', '\n', '\n']) = ['\n', '\n', '\n'] by
      simp [stripHeaders, headerEnd, nfkd]]
    decide
  have h2 : normalizeLyrics ['\n', '\n'] = ['\n'] := by
    unfold normalizeLyrics
    rw [show stripHeaders (nfkd ['\n', '\n']) = ['\n', '\n'] by
      simp [stripHeaders, headerEnd, nfkd]]
    decide
  rw [h1, h2]
  decide

/-- C8 (amended): normalization is idempotent on every string whose
normalized form contains no doubled newline; for such a string a second
pass changes nothing. -/
theorem normalize_idempotent_on_collapsed :
    ∀ s : Str, ¬(['\n', '\n'] <:+: normalizeLyrics s) →
      normalizeLyrics (normalizeLyrics s) = normalizeLyrics s := by
  intro s H
  obtain ⟨u, hu⟩ : ∃ u, normalizeLyrics s = casefold (removePunctuation u) := ⟨_, rfl⟩
  rw [hu] at H ⊢
  rw [normalizeLyrics]
  rw [show nfkd (casefold (removePunctuation u)) = casefold (removePunctuation u) from rfl]
  rw [stripHeaders_eq_self _ (lbracket_not_mem_normalized u)]
  rw [collapseNewlines_eq_self _ H]
  rw [removePunctuation_eq_self _ fun c hc => keep_of_mem_normalized u hc]
  rw [casefold_casefold]

/-- Witness for the amended C8 at a concrete string. -/
theorem normalize_idempotent_on_collapsed_witness :
    ¬(['\n', '\n'] <:+: normalizeLyrics ['a'])
    ∧ normalizeLyrics (normalizeLyrics ['a']) = normalizeLyrics ['a'] := by
  have h : ¬(['\n', '\n'] <:+: normalizeLyrics ['a']) := by
    rw [show normalizeLyrics ['a'] = ['a'] by
      unfold normalizeLyrics
      rw [show stripHeaders (nfkd ['a']) = ['a'] by simp [stripHeaders, headerEnd, nfkd]]
      decide]
    decide
  exact ⟨h, normalize_idempotent_on_collapsed ['a'] h⟩

/-! Registry: identity, framing, persistence. -/

theorem artistFromData_fst (d : ArtistData) (st : RegState) :
    (Artist.from_data d st).1 = d.id := by
  unfold Artist.from_data
  cases st.artists d.id <;> rfl

theorem Artist.from_data_songs (d : ArtistData) (st : RegState) :
    ((Artist.from_data d st).2).songs = st.songs := by
  unfold Artist.from_data
  cases st.artists d.id <;> rfl

theorem Artist.from_data_artists_frame (d : ArtistData) (st : RegState) (k : Nat) (a : Artist)
    (h : st.artists k = some a) : ((Artist.from_data d st).2).artists k = some a := by
  unfold Artist.from_data
  cases hd : st.artists d.id with
  | some _ => exact h
  | none =>
    by_cases hk : k = d.id
    · subst hk
      rw [h] at hd
      exact absurd hd (by simp)
    · simpa [hk] using h

theorem registerFeatured_fst (fas : List ArtistData) :
    ∀ st, (registerFeatured fas st).1 = fas.map ArtistData.id := by
  induction fas with
  | nil => intro st; rfl
  | cons fa rest ih => intro st; simp [registerFeatured, artistFromData_fst, ih]

theorem registerFeatured_songs (fas : List ArtistData) :
    ∀ st, ((registerFeatured fas st).2).songs = st.songs := by
  induction fas with
  | nil => intro st; rfl
  | cons fa rest ih => intro st; simp [registerFeatured, Artist.from_data_songs, ih]

theorem registerFeatured_artists_frame (fas : List ArtistData) :
    ∀ st k a, st.artists k = some a → ((registerFeatured fas st).2).artists k = some a := by
  induction fas with
  | nil => intro st k a h; exact h
  | cons fa rest ih =>
    intro st k a h
    simpa [registerFeatured] using ih _ k a (Artist.from_data_artists_frame fa st k a h)

theorem appendFeaturedOnAll_songs (aids : List Nat) :
    ∀ sid st, (appendFeaturedOnAll aids sid st).songs = st.songs := by
  induction aids with
  | nil => intro sid st; rfl
  | cons aid rest ih => intro sid st; simpa [appendFeaturedOnAll] using ih sid _

theorem songFromData_fst (d : SongData) (st : RegState) :
    (Song.from_data d st).1 = d.id := by
  unfold Song.from_data
  cases st.songs d.id <;> rfl

theorem Song.from_data_songs_at (d : SongData) (st : RegState) (hd : st.songs d.id = none) :
    ((Song.from_data d st).2).songs d.id =
      some ⟨nfkd d.title, nfkd d.full_title, d.url, d.primary_artist.id,
        d.featured_artists.map ArtistData.id, none⟩ := by
  unfold Song.from_data
  rw [hd]
  simp [artistFromData_fst, registerFeatured_fst]

theorem Song.from_data_songs_frame (d : SongData) (st : RegState) (k : Nat) (hk : k ≠ d.id) :
    ((Song.from_data d st).2).songs k = st.songs k := by
  unfold Song.from_data
  cases hd : st.songs d.id with
  | some _ => rfl
  | none =>
    simp only [hk, if_false, ite_false]
    rw [show (appendFeaturedOnAll
        (registerFeatured d.featured_artists (Artist.from_data d.primary_artist st).2).1 d.id
        (appendSongTo (Artist.from_data d.primary_artist st).1 d.id
          (registerFeatured d.featured_artists (Artist.from_data d.primary_artist st).2).2)).songs
        = st.songs by
      rw [appendFeaturedOnAll_songs]
      show ((registerFeatured d.featured_artists (Artist.from_data d.primary_artist st).2).2).songs = st.songs
      rw [registerFeatured_songs, Artist.from_data_songs]]

/-- C1: entity identity is de-duplicated per id with first-seen data
winning: a `from_data` call whose id is already registered returns the
existing object (the registered reference) and leaves the registry
unchanged, ignoring every field of the new raw record; a call on a fresh
id registers an object built from that record's data. -/
theorem entity_identity_first_seen_wins :
    (∀ (d : ArtistData) (st : RegState) (a : Artist), st.artists d.id = some a →
      Artist.from_data d st = (d.id, st))
    ∧ (∀ (d : ArtistData) (st : RegState), st.artists d.id = none →
      ((Artist.from_data d st).2).artists d.id = some ⟨d.name, d.url, [], []⟩)
    ∧ (∀ (d : SongData) (st : RegState) (s : Song), st.songs d.id = some s →
      Song.from_data d st = (d.id, st))
    ∧ (∀ (d : SongData) (st : RegState), st.songs d.id = none →
      ((Song.from_data d st).2).songs d.id =
        some ⟨nfkd d.title, nfkd d.full_title, d.url, d.primary_artist.id,
          d.featured_artists.map ArtistData.id, none⟩) := by
  refine ⟨?_, ?_, ?_, fun d st h => Song.from_data_songs_at d st h⟩
  · intro d st a h
    simp [Artist.from_data, h]
  · intro d st h
    simp [Artist.from_data, h]
  · intro d st s h
    simp [Song.from_data, h]

/-- Witness for C1: a repeated `Song.from_data` call on an already
registered id returns the registered object and changes nothing, ignoring
the differing fields of the new record. -/
theorem entity_identity_first_seen_wins_witness :
    c1St.songs 4 = some ⟨['t'], ['f'], "su", 7, [], none⟩
    ∧ Song.from_data ⟨4, ['x'], ['y'], "other", ⟨7, "N2", "U2"⟩, [], none⟩ c1St = (4, c1St) :=
  ⟨rfl, entity_identity_first_seen_wins.2.2.1
    ⟨4, ['x'], ['y'], "other", ⟨7, "N2", "U2"⟩, [], none⟩ c1St
    ⟨['t'], ['f'], "su", 7, [], none⟩ rfl⟩

/-! Persistence: framing of lyric assignment, name preservation, and the
save/load round trip. -/

theorem setSongLyrics_at (sid : Nat) (ly : Option Str) (st : RegState) (s : Song)
    (h : st.songs sid = some s) :
    (setSongLyrics sid ly st).songs sid = some { s with lyrics := ly } := by
  simp [setSongLyrics, h]

theorem setSongLyrics_frame (sid : Nat) (ly : Option Str) (st : RegState) (k : Nat)
    (hk : k ≠ sid) : (setSongLyrics sid ly st).songs k = st.songs k := by
  simp [setSongLyrics, hk]

theorem setSongLyrics_artists (sid : Nat) (ly : Option Str) (st : RegState) :
    (setSongLyrics sid ly st).artists = st.artists := rfl

theorem pan_refl (st : RegState) : preservesArtistNames st st :=
  fun _ a h => ⟨a, h, rfl, rfl⟩

theorem pan_trans {s1 s2 s3 : RegState} (h1 : preservesArtistNames s1 s2)
    (h2 : preservesArtistNames s2 s3) : preservesArtistNames s1 s3 := by
  intro k a h
  obtain ⟨a', ha', hn', hu'⟩ := h1 k a h
  obtain ⟨a'', ha'', hn'', hu''⟩ := h2 k a' ha'
  exact ⟨a'', ha'', hn''.trans hn', hu''.trans hu'⟩

theorem pan_appendSongTo (aid sid : Nat) (st : RegState) :
    preservesArtistNames st (appendSongTo aid sid st) := by
  intro k a h
  by_cases hk : k = aid
  · subst hk
    exact ⟨{ a with songIds := a.songIds ++ [sid] }, by simp [appendSongTo, h], rfl, rfl⟩
  · exact ⟨a, by simp [appendSongTo, hk, h], rfl, rfl⟩

theorem pan_appendFeaturedOnTo (aid sid : Nat) (st : RegState) :
    preservesArtistNames st (appendFeaturedOnTo aid sid st) := by
  intro k a h
  by_cases hk : k = aid
  · subst hk
    exact ⟨{ a with featuredOnIds := a.featuredOnIds ++ [sid] },
      by simp [appendFeaturedOnTo, h], rfl, rfl⟩
  · exact ⟨a, by simp [appendFeaturedOnTo, hk, h], rfl, rfl⟩

theorem pan_appendFeaturedOnAll (aids : List Nat) :
    ∀ sid st, preservesArtistNames st (appendFeaturedOnAll aids sid st) := by
  induction aids with
  | nil => intro sid st; exact pan_refl st
  | cons aid rest ih =>
    intro sid st
    exact pan_trans (pan_appendFeaturedOnTo aid sid st)
      (by simpa [appendFeaturedOnAll] using ih sid (appendFeaturedOnTo aid sid st))

theorem pan_Artist_from_data (d : ArtistData) (st : RegState) :
    preservesArtistNames st ((Artist.from_data d st).2) :=
  fun k a h => ⟨a, Artist.from_data_artists_frame d st k a h, rfl, rfl⟩

theorem pan_registerFeatured (fas : List ArtistData) (st : RegState) :
    preservesArtistNames st ((registerFeatured fas st).2) :=
  fun k a h => ⟨a, registerFeatured_artists_frame fas st k a h, rfl, rfl⟩

theorem pan_Song_from_data (d : SongData) (st : RegState) :
    preservesArtistNames st ((Song.from_data d st).2) := by
  cases hd : st.songs d.id with
  | some s =>
    have h2 : Song.from_data d st = (d.id, st) := by simp [Song.from_data, hd]
    rw [h2]
    exact pan_refl st
  | none =>
    have h2 : ((Song.from_data d st).2).artists =
        (appendFeaturedOnAll
          (registerFeatured d.featured_artists (Artist.from_data d.primary_artist st).2).1 d.id
          (appendSongTo (Artist.from_data d.primary_artist st).1 d.id
            (registerFeatured d.featured_artists (Artist.from_data d.primary_artist st).2).2)).artists := by
      simp [Song.from_data, hd]
    intro k a h
    rw [h2]
    exact pan_trans (pan_Artist_from_data d.primary_artist st)
      (pan_trans (pan_registerFeatured d.featured_artists _)
        (pan_trans (pan_appendSongTo (Artist.from_data d.primary_artist st).1 d.id _)
          (pan_appendFeaturedOnAll _ d.id _))) k a h

theorem pan_loadSongs (L : List SongData) :
    ∀ st, preservesArtistNames st (loadSongs L st) := by
  induction L with
  | nil => intro st; exact pan_refl st
  | cons d rest ih =>
    intro st
    refine pan_trans (pan_Song_from_data d st) ?_
    have : preservesArtistNames ((Song.from_data d st).2)
        (setSongLyrics (Song.from_data d st).1 d.lyrics (Song.from_data d st).2) := by
      rw [preservesArtistNames, setSongLyrics_artists]
      exact pan_refl _
    exact pan_trans this (by simpa [loadSongs] using ih _)

theorem load_step (st : RegState) (d : SongData) (cur : RegState)
    (hd : DictOf st d)
    (hcur : cur.songs d.id = none ∨ cur.songs d.id = st.songs d.id) :
    (setSongLyrics (Song.from_data d cur).1 d.lyrics (Song.from_data d cur).2).songs d.id
      = st.songs d.id
    ∧ ∀ k, k ≠ d.id →
      (setSongLyrics (Song.from_data d cur).1 d.lyrics (Song.from_data d cur).2).songs k
        = cur.songs k := by
  obtain ⟨s, hs, ht, hft, hu, ha, hfa, hly⟩ := hd
  constructor
  · rcases hcur with hnone | heq
    · have h1 := Song.from_data_songs_at d cur hnone
      rw [songFromData_fst, setSongLyrics_at _ _ _ _ h1, hs]
      cases s
      simp_all [nfkd]
    · have hsome : cur.songs d.id = some s := heq.trans hs
      have h2 : Song.from_data d cur = (d.id, cur) := by
        simp [Song.from_data, hsome]
      rw [h2]
      rw [setSongLyrics_at _ _ _ _ hsome, hs, hly]
  · intro k hk
    rw [songFromData_fst, setSongLyrics_frame _ _ _ _ hk,
      Song.from_data_songs_frame d cur k hk]

theorem loadSongs_songs_spec (st : RegState) : ∀ (L : List SongData) (cur : RegState),
    (∀ d ∈ L, DictOf st d) →
    (∀ k, cur.songs k = none ∨ cur.songs k = st.songs k) →
    (∀ k, (loadSongs L cur).songs k = cur.songs k ∨ (loadSongs L cur).songs k = st.songs k)
    ∧ (∀ d ∈ L, (loadSongs L cur).songs d.id = st.songs d.id) := by
  intro L
  induction L with
  | nil => intro cur _ _; exact ⟨fun _ => Or.inl rfl, by simp⟩
  | cons d rest ih =>
    intro cur hL hcur
    have hstep := load_step st d cur (hL d (List.mem_cons_self d rest)) (hcur d.id)
    have hnext : ∀ k,
        (setSongLyrics (Song.from_data d cur).1 d.lyrics (Song.from_data d cur).2).songs k = none
        ∨ (setSongLyrics (Song.from_data d cur).1 d.lyrics (Song.from_data d cur).2).songs k
            = st.songs k := by
      intro k
      by_cases hk : k = d.id
      · subst hk
        exact Or.inr hstep.1
      · rw [hstep.2 k hk]
        exact hcur k
    obtain ⟨hframe, hmem⟩ :=
      ih (setSongLyrics (Song.from_data d cur).1 d.lyrics (Song.from_data d cur).2)
        (fun d' hd' => hL d' (List.mem_cons_of_mem d hd')) hnext
    have hload : loadSongs (d :: rest) cur =
        loadSongs rest (setSongLyrics (Song.from_data d cur).1 d.lyrics (Song.from_data d cur).2) := by
      simp [loadSongs]
    rw [hload]
    constructor
    · intro k
      rcases hframe k with h | h
      · by_cases hk : k = d.id
        · subst hk
          exact Or.inr (h.trans hstep.1)
        · exact Or.inl (h.trans (hstep.2 k hk))
      · exact Or.inr h
    · intro d' hd'
      rcases List.mem_cons.mp hd' with rfl | hmem'
      · rcases hframe d'.id with h | h
        · exact h.trans hstep.1
        · exact h
      · exact hmem d' hmem'

theorem featuredDicts_ids (st : RegState) :
    ∀ fids ds, featuredDicts st fids = some ds → ds.map ArtistData.id = fids := by
  intro fids
  induction fids with
  | nil =>
    intro ds h
    simp [featuredDicts] at h
    simp [← h]
  | cons fid rest ih =>
    intro ds h
    rw [featuredDicts] at h
    cases ha : st.artists fid with
    | none => rw [ha] at h; simp at h
    | some fa =>
      rw [ha] at h
      cases hr : featuredDicts st rest with
      | none => rw [hr] at h; simp at h
      | some ds' =>
        rw [hr] at h
        simp at h
        simp [← h, Artist.to_dict, ih ds' hr]

theorem Song.to_dict_spec (st : RegState) (sid : Nat) (d : SongData)
    (h : Song.to_dict st sid = some d) : d.id = sid ∧ DictOf st d := by
  unfold Song.to_dict at h
  cases hs : st.songs sid with
  | none => rw [hs] at h; simp at h
  | some s =>
    simp only [hs] at h
    cases ha : st.artists s.artistId with
    | none => simp only [ha] at h; exact absurd h (by simp)
    | some a =>
      simp only [ha] at h
      cases hf : featuredDicts st s.featuredArtistIds with
      | none => simp only [hf] at h; exact absurd h (by simp)
      | some fds =>
        simp only [hf] at h
        simp at h
        refine ⟨by rw [← h], ?_⟩
        rw [← h]
        exact ⟨s, hs, rfl, rfl, rfl, rfl, featuredDicts_ids st _ fds hf, rfl⟩

theorem songDicts_mem (st : RegState) :
    ∀ ids ds, songDicts st ids = some ds →
      ∀ sid ∈ ids, ∃ d ∈ ds, Song.to_dict st sid = some d := by
  intro ids
  induction ids with
  | nil => intro ds _ sid hsid; simp at hsid
  | cons i rest ih =>
    intro ds h sid hsid
    rw [songDicts] at h
    cases hd : Song.to_dict st i with
    | none => rw [hd] at h; simp at h
    | some d =>
      rw [hd] at h
      cases hr : songDicts st rest with
      | none => rw [hr] at h; simp at h
      | some ds' =>
        rw [hr] at h
        simp at h
        rcases List.mem_cons.mp hsid with rfl | hmem
        · exact ⟨d, by simp [← h], hd⟩
        · obtain ⟨d', hd', hdict⟩ := ih ds' hr sid hmem
          exact ⟨d', by simp [← h, hd'], hdict⟩

theorem songDicts_all (st : RegState) :
    ∀ ids ds, songDicts st ids = some ds →
      ∀ d ∈ ds, ∃ sid, Song.to_dict st sid = some d := by
  intro ids
  induction ids with
  | nil =>
    intro ds h d hd
    simp [songDicts] at h
    subst h
    simp at hd
  | cons i rest ih =>
    intro ds h d hd
    rw [songDicts] at h
    cases hdi : Song.to_dict st i with
    | none => rw [hdi] at h; simp at h
    | some d0 =>
      rw [hdi] at h
      cases hr : songDicts st rest with
      | none => rw [hr] at h; simp at h
      | some ds' =>
        rw [hr] at h
        simp at h
        rw [← h] at hd
        rcases List.mem_cons.mp hd with rfl | hmem
        · exact ⟨i, hdi⟩
        · exact ih ds' hr d hmem

/-- C5: loading the document written by `save_artist` into a fresh registry
reproduces the artist (same name and url) and every saved song: for every
id in the artist's `songs` and `featured_on` lists, the reloaded registry
holds a song entry equal to the original — same title, full title, url,
primary-artist id, featured-artist ids, and the exact stored lyrics value. -/
theorem save_load_round_trip (st : RegState) (aid t : Nat) (sa : SavedArtist)
    (h : save_artist st aid t = some sa) :
    (load_artist sa emptyReg).1 = aid
    ∧ ∃ a a', st.artists aid = some a
      ∧ ((load_artist sa emptyReg).2).artists aid = some a'
      ∧ a'.name = a.name ∧ a'.url = a.url
      ∧ ∀ sid ∈ a.songIds ++ a.featuredOnIds,
          (∃ s, st.songs sid = some s)
          ∧ ((load_artist sa emptyReg).2).songs sid = st.songs sid := by
  unfold save_artist at h
  cases ha : st.artists aid with
  | none => rw [ha] at h; simp at h
  | some a =>
    simp only [ha] at h
    cases h1 : songDicts st a.songIds with
    | none => simp only [h1] at h; exact absurd h (by simp)
    | some sds =>
      simp only [h1] at h
      cases h2 : songDicts st a.featuredOnIds with
      | none => simp only [h2] at h; exact absurd h (by simp)
      | some fds =>
        simp only [h2] at h
        simp at h
        subst h
        have hload : load_artist ⟨aid, a.name, a.url, t, sds, fds⟩ emptyReg
            = (aid, loadSongs (sds ++ fds) (Artist.from_data ⟨aid, a.name, a.url⟩ emptyReg).2) := by
          simp [load_artist, artistFromData_fst]
        have hart0 : ((Artist.from_data ⟨aid, a.name, a.url⟩ emptyReg).2).artists aid
            = some ⟨a.name, a.url, [], []⟩ := by
          simp [Artist.from_data, emptyReg]
        have hsongs0 : ∀ k,
            ((Artist.from_data ⟨aid, a.name, a.url⟩ emptyReg).2).songs k = none := by
          intro k
          rw [Artist.from_data_songs]
          rfl
        have hall : ∀ d ∈ sds ++ fds, DictOf st d := by
          intro d hd
          rcases List.mem_append.mp hd with hmem | hmem
          · obtain ⟨sid, hsd⟩ := songDicts_all st a.songIds sds h1 d hmem
            exact (Song.to_dict_spec st sid d hsd).2
          · obtain ⟨sid, hsd⟩ := songDicts_all st a.featuredOnIds fds h2 d hmem
            exact (Song.to_dict_spec st sid d hsd).2
        obtain ⟨hframe, hmem⟩ := loadSongs_songs_spec st (sds ++ fds)
          (Artist.from_data ⟨aid, a.name, a.url⟩ emptyReg).2 hall
          (fun k => Or.inl (hsongs0 k))
        obtain ⟨a', ha', hn, hu⟩ :=
          pan_loadSongs (sds ++ fds) (Artist.from_data ⟨aid, a.name, a.url⟩ emptyReg).2
            aid ⟨a.name, a.url, [], []⟩ hart0
        refine ⟨by rw [hload], a, a', rfl, by rw [hload]; exact ha', hn, hu, ?_⟩
        intro sid hsid
        rcases List.mem_append.mp hsid with hmem' | hmem'
        · obtain ⟨d, hdmem, hdict⟩ := songDicts_mem st a.songIds sds h1 sid hmem'
          obtain ⟨hid, s, hs, _⟩ := Song.to_dict_spec st sid d hdict
          rw [hid] at hs
          refine ⟨⟨s, hs⟩, ?_⟩
          rw [hload]
          have hm := hmem d (List.mem_append_left _ hdmem)
          rw [hid] at hm
          exact hm
        · obtain ⟨d, hdmem, hdict⟩ := songDicts_mem st a.featuredOnIds fds h2 sid hmem'
          obtain ⟨hid, s, hs, _⟩ := Song.to_dict_spec st sid d hdict
          rw [hid] at hs
          refine ⟨⟨s, hs⟩, ?_⟩
          rw [hload]
          have hm := hmem d (List.mem_append_right _ hdmem)
          rw [hid] at hm
          exact hm

/-- Witness for C5: a concrete one-artist, one-song registry survives the
round trip. -/
theorem save_load_round_trip_witness :
    save_artist c5St 7 0 = some c5Saved
    ∧ ((load_artist c5Saved emptyReg).1 = 7
      ∧ ∃ a a', c5St.artists 7 = some a
        ∧ ((load_artist c5Saved emptyReg).2).artists 7 = some a'
        ∧ a'.name = a.name ∧ a'.url = a.url
        ∧ ∀ sid ∈ a.songIds ++ a.featuredOnIds,
            (∃ s, c5St.songs sid = some s)
            ∧ ((load_artist c5Saved emptyReg).2).songs sid = c5St.songs sid) :=
  ⟨rfl, save_load_round_trip c5St 7 0 c5Saved rfl⟩

/-- Witness for C2 at a one-song artist and one query. -/
theorem search_artist_lyrics_matches_spec_witness :
    (∀ s ∈ [c2Song] ++ (if true then ([] : List Song) else []), s.lyrics ≠ none)
    ∧ search_artist_lyrics [c2Song] [] [['a']] true false
        = .ok (search_spec [c2Song] [] [['a']] true false) :=
  ⟨by decide, search_artist_lyrics_matches_spec [c2Song] [] [['a']] true false (by decide)⟩

/-- Witness for the amended C4 at a one-song page and no search hits. -/
theorem get_artist_id_two_tiered_witness :
    (([⟨⟨1, "A"⟩, []⟩] : List PageSong) ≠ [])
    ∧ ((tier1Scan "X" [⟨⟨1, "A"⟩, []⟩] = none →
        get_artist_id "X" [⟨⟨1, "A"⟩, []⟩] []
          = tier2Scan "X" ([⟨⟨1, "A"⟩, []⟩] : List PageSong).getLast? [])
      ∧ (get_artist_id "X" [⟨⟨1, "A"⟩, []⟩] [] = .error .valueError ↔
          tier1Scan "X" [⟨⟨1, "A"⟩, []⟩] = none
          ∧ ∀ i, tier2Scan "X" ([⟨⟨1, "A"⟩, []⟩] : List PageSong).getLast? [] ≠ .ok i)) :=
  ⟨by decide, get_artist_id_two_tiered "X" [⟨⟨1, "A"⟩, []⟩] [] (by decide)⟩

/-- Witness for C10: one unfetched candidate song and one query. -/
theorem search_raises_on_unfetched_witness :
    (([['a']] : List Str) ≠ [])
    ∧ (c10Song ∈ [c10Song] ++ (if true then ([] : List Song) else []))
    ∧ c10Song.lyrics = none
    ∧ search_artist_lyrics [c10Song] [] [['a']] true false = .error .typeError :=
  ⟨by decide, by decide, rfl,
    search_raises_on_unfetched [c10Song] [] [['a']] true false (by decide) c10Song (by decide) rfl⟩

end Lyricist
